import Mathlib

/-!
Verification development for the fit-file uploader (src/garmin.py).

The Python source is shallowly embedded: decoded FIT messages become a tagged
union over the two message kinds the program acts on (FileIdMessage and
DeviceInfoMessage), a workout message, and an opaque pass-through constructor
for every other record kind.  Field values are the integer codes used by the
fit_tool profile; the concrete codes below are the ones the source references
(Manufacturer.DEVELOPMENT, Manufacturer.GARMIN, Manufacturer.WAHOO_FITNESS,
GarminProduct.EDGE_830, Sport.CYCLING).  Filesystem paths are modelled as a
directory string plus a file name; the directory scan of upload_all operates
on the list of file names the OS enumeration yields, in enumeration order.
-/

namespace Garmin

/-- Manufacturer code Manufacturer.DEVELOPMENT.value in the FIT profile. -/
def DEVELOPMENT : Nat := 255

/-- Manufacturer code Manufacturer.GARMIN.value in the FIT profile. -/
def GARMIN : Nat := 1

/-- Manufacturer code Manufacturer.WAHOO_FITNESS.value in the FIT profile. -/
def WAHOO_FITNESS : Nat := 32

/-- Product code GarminProduct.EDGE_830.value in the FIT profile. -/
def EDGE_830 : Nat := 3122

/-- Sport code Sport.CYCLING.value in the FIT profile. -/
def CYCLING : Nat := 2

/-- Decoded FileIdMessage: the identity record of the file. -/
structure FileIdMsg where
  manufacturer : Nat
  product : Nat
  garminProduct : Nat
  timeCreated : Nat
deriving DecidableEq, Repr

/-- Decoded DeviceInfoMessage: per-device metadata record. -/
structure DeviceInfoMsg where
  manufacturer : Nat
  product : Nat
  garminProduct : Nat
deriving DecidableEq, Repr

/-- Decoded WorkoutMessage: carries a workout name and a sport code. -/
structure WorkoutMsg where
  workoutName : String
  sport : Nat
deriving DecidableEq, Repr

/-- A decoded record of an activity file.  Records other than the two kinds
the program mutates are carried opaquely by the last constructor. -/
inductive Message where
  | fileId : FileIdMsg → Message
  | deviceInfo : DeviceInfoMsg → Message
  | workout : WorkoutMsg → Message
  | other : Nat → Message
deriving DecidableEq, Repr

/-- Mutation of a FileIdMessage, from src/garmin.py lines 208-217: when the
manufacturer equals Manufacturer.DEVELOPMENT, product becomes EDGE_830 and
manufacturer becomes GARMIN; otherwise the message is left as is. -/
def editFileId (m : FileIdMsg) : FileIdMsg :=
  if m.manufacturer = DEVELOPMENT then
    { m with product := EDGE_830, manufacturer := GARMIN }
  else m

/-- Mutation of a DeviceInfoMessage, from src/garmin.py lines 220-228: when
the manufacturer is DEVELOPMENT, zero or WAHOO_FITNESS, garminProduct and
product become EDGE_830 and manufacturer becomes GARMIN; otherwise the
message is left as is. -/
def editDeviceInfo (m : DeviceInfoMsg) : DeviceInfoMsg :=
  if m.manufacturer = DEVELOPMENT ∨ m.manufacturer = 0 ∨ m.manufacturer = WAHOO_FITNESS then
    { m with garminProduct := EDGE_830, product := EDGE_830, manufacturer := GARMIN }
  else m

/-- Per-record action of the edit_fit loop body: the two recognised kinds are
mutated, everything else passes through unchanged. -/
def editMessage : Message → Message
  | Message.fileId m => Message.fileId (editFileId m)
  | Message.deviceInfo m => Message.deviceInfo (editDeviceInfo m)
  | m => m

/-- The builder accumulation of the edit_fit loop: each record of the input
is appended, possibly mutated, in input order (builder.add at line 230). -/
def buildLoop : List Message → List Message → List Message
  | [], builder => builder
  | r :: rest, builder => buildLoop rest (builder ++ [editMessage r])

/-- A filesystem path, modelled as the directory part and the file name. -/
structure FPath where
  dir : String
  base : String
deriving DecidableEq, Repr

/-- Index of the last dot of a name, mirroring str.rfind of the dot. -/
def lastDotIdx (cs : List Char) : Option Nat :=
  ((List.range cs.length).filter (fun i => cs.getD i ' ' = '.')).getLast?

/-- Stem of a file name with the semantics of pathlib Path.stem: the name
without its last suffix, where a dot at position zero or at the very end
does not begin a suffix. -/
def pyStem (s : String) : String :=
  match lastDotIdx s.data with
  | none => s
  | some i => if 0 < i ∧ i + 1 < s.data.length then ⟨s.data.take i⟩ else s

/-- Result of edit_fit: the output path it returns, the record list handed to
the builder, and the write effect (none when no file was written). -/
structure EditResult where
  outPath : FPath
  messages : List Message
  written : Option FPath
deriving DecidableEq, Repr

/-- Embedding of edit_fit (src/garmin.py lines 196-242): decode, default the
output path to parent / stem plus the _modified.fit suffix, run the builder
loop over all records, append one workout message carrying the supplied name
with sport CYCLING when the name is non-empty, and write the result unless
dryrun is set; the output path is returned in every case. -/
def edit_fit (records : List Message) (fit_path : FPath) (output : Option FPath)
    (dryrun : Bool) (name : String) : EditResult :=
  let out := match output with
    | none => ⟨fit_path.dir, pyStem fit_path.base ++ "_modified.fit"⟩
    | some o => o
  let built := buildLoop records []
  let msgs := if name ≠ "" then built ++ [Message.workout ⟨name, CYCLING⟩] else built
  ⟨out, msgs, if dryrun then none else some out⟩

theorem buildLoop_eq (records acc : List Message) :
    buildLoop records acc = acc ++ records.map editMessage := by
  induction records generalizing acc with
  | nil => simp [buildLoop]
  | cons r rest ih => simp [buildLoop, ih]

theorem edit_fit_messages_eq (records : List Message) (p : FPath) (out : Option FPath)
    (dryrun : Bool) (name : String) :
    (edit_fit records p out dryrun name).messages =
      records.map editMessage ++
        (if name = "" then [] else [Message.workout ⟨name, CYCLING⟩]) := by
  by_cases h : name = "" <;> simp [edit_fit, h, buildLoop_eq]

/-- Lower-casing of a file name, character by character, modelling the
case-insensitive match of the glob pattern. -/
def strLower (s : String) : String := ⟨s.data.map Char.toLower⟩

/-- Suffix test on strings with the semantics of str.endswith. -/
def strEndsWith (s suf : String) : Bool :=
  s.data.drop (s.data.length - suf.data.length) == suf.data

/-- Whether a file name matches the glob pattern for fit files with
case_sensitive set to False (src/garmin.py line 300). -/
def isFitName (n : String) : Bool := strEndsWith (strLower n) ".fit"

/-- Candidate computation of upload_all (src/garmin.py lines 300-306): the
glob over the directory listing keeping fit-suffixed names, then removal of
names ending in the reserved modified suffix, then removal of names already
in the loaded ledger.  The listing is the enumeration the OS yields and each
filter keeps its relative order. -/
def candidates (listing ledger : List String) : List String :=
  ((listing.filter (fun n => isFitName n)).filter
      (fun n => ! strEndsWith n "_modified.fit")).filter
    (fun n => ! ledger.contains n)

/-- Outcome of processing one candidate file in the loop body of upload_all:
everything succeeded, the remote upload reported an HTTP 409 conflict, the
decode raised MalformedFileError, or some other remote error was raised. -/
inductive FileOutcome where
  | ok : FileOutcome
  | conflict : FileOutcome
  | malformed : FileOutcome
  | remoteError : FileOutcome
deriving DecidableEq, Repr

/-- Whether processing the file raises an uncaught exception out of the loop
body.  A decode failure raises regardless of dryrun (the decode happens in
get_date_from_fit before any dryrun check, and the except clause at
src/garmin.py lines 327-328 is commented out); a non-conflict remote error
raises only when the remote upload is actually performed, which dryrun
suppresses; a 409 conflict is caught inside upload and never raises. -/
def abortsAt (env : String → FileOutcome) (dryrun : Bool) (f : String) : Bool :=
  match env f with
  | FileOutcome.malformed => true
  | FileOutcome.remoteError => ! dryrun
  | _ => false

/-- The per-file loop of upload_all (src/garmin.py lines 314-329): in
preinitialise mode every candidate is appended to the in-memory uploaded
list without processing; otherwise the file is processed and appended, and
an uncaught exception stops the loop at that file with the append and all
later iterations never reached. -/
def runLoop (env : String → FileOutcome) (preinit dryrun : Bool) :
    List String → List String → List String × Option String
  | [], acc => (acc, none)
  | f :: rest, acc =>
    if preinit then runLoop env preinit dryrun rest (acc ++ [f])
    else if abortsAt env dryrun f then (acc, some f)
    else runLoop env preinit dryrun rest (acc ++ [f])

/-- The files of a batch for which the loop body reaches the call of
get_name_from_intervals (src/garmin.py line 322).  The call has no dryrun
guard: it is reached for every candidate whose decode at line 321 did not
raise, in loop order, up to and including the candidate whose later upload
raised. -/
def lookupRuns (env : String → FileOutcome) (dryrun : Bool) : List String → List String
  | [] => []
  | f :: rest =>
    if env f = FileOutcome.malformed then []
    else if abortsAt env dryrun f then [f]
    else f :: lookupRuns env dryrun rest

/-- Observable result of one upload_all run.  blankCreated records the
unconditional write of a fresh empty ledger file when none exists
(src/garmin.py lines 291-295, not guarded by dryrun); nameLookups lists the
candidates for which get_name_from_intervals was invoked (line 322, also
not guarded by dryrun); finalLedger is the content written to the ledger
file at the end of the run, none when that write never happened; aborted
names the candidate whose uncaught exception ended the run early, none when
the loop completed. -/
structure UARun where
  blankCreated : Bool
  filesToProcess : List String
  nameLookups : List String
  finalLedger : Option (List String)
  aborted : Option String
deriving DecidableEq, Repr

/-- Embedding of upload_all (src/garmin.py lines 285-333): load the ledger
or create a blank one, compute the candidate list, return early when it is
empty, run the per-file loop, and persist the accumulated uploaded list
only when the loop completed and dryrun is not set.  The naming-service
lookup of each processed candidate runs regardless of dryrun; only
preinitialise mode skips the whole processing block. -/
def upload_all (env : String → FileOutcome) (listing : List String)
    (ledgerFile : Option (List String)) (preinit dryrun : Bool) : UARun :=
  let uploaded := ledgerFile.getD []
  let files := candidates listing uploaded
  if files = [] then
    { blankCreated := ledgerFile.isNone, filesToProcess := [],
      nameLookups := [], finalLedger := none, aborted := none }
  else
    let res := runLoop env preinit dryrun files uploaded
    { blankCreated := ledgerFile.isNone, filesToProcess := files,
      nameLookups := if preinit then [] else lookupRuns env dryrun files,
      finalLedger := if res.2 = none ∧ dryrun = false then some res.1 else none,
      aborted := res.2 }

/-- What the remote upload endpoint reports for one submission. -/
inductive RemoteResult where
  | accepted : RemoteResult
  | conflict : RemoteResult
  | failed : RemoteResult
deriving DecidableEq, Repr

/-- Observable effects of one call of upload: whether the remote login was
performed and the token store written, whether the remote upload call was
made, whether the rename path was attempted, and whether an exception
escaped the function. -/
structure UploadRes where
  loginCalled : Bool
  tokenSaved : Bool
  uploadCalled : Bool
  renameAttempted : Bool
  raised : Bool
deriving DecidableEq, Repr

/-- Embedding of upload (src/garmin.py lines 244-283).  The authentication
block at lines 249-267 runs before any dryrun check: when the cached garth
session cannot be resumed, a remote garth.login is performed and the token
store is written by garth.save.  Under dryrun the remote upload itself is
never invoked; otherwise an accepted submission triggers the rename path
when a timestamp and a non-empty name are present, an HTTP 409 conflict is
caught and only logged, and any other remote failure escapes the
function. -/
def upload (sessionValid dryrun : Bool) (remote : RemoteResult) (haveDt : Bool)
    (name : String) : UploadRes :=
  let auth := ! sessionValid
  if dryrun then ⟨auth, auth, false, false, false⟩
  else
    match remote with
    | RemoteResult.accepted => ⟨auth, auth, true, haveDt && ! (name == ""), false⟩
    | RemoteResult.conflict => ⟨auth, auth, true, false, false⟩
    | RemoteResult.failed => ⟨auth, auth, true, false, true⟩

/-- One activity as returned by the secondary naming service for the day of
the queried timestamp: the oauth client tag, the start instant in seconds,
and the activity name. -/
structure IcuActivity where
  oauthClientName : String
  startSeconds : Int
  name : String
deriving DecidableEq, Repr

/-- Environment of get_name_from_intervals: the two optional credentials and
the activity list the service returns for the queried day. -/
structure IntervalsEnv where
  athleteId : Option String
  apiKey : Option String
  activities : List IcuActivity
deriving DecidableEq, Repr

/-- The activity loop of get_name_from_intervals (src/garmin.py lines
160-166): the first activity whose oauth client tag is the Training Peaks
Virtual tag and whose start lies within fifteen seconds of the timestamp
yields its name. -/
def findIcuMatch (t : Int) : List IcuActivity → Option String
  | [] => none
  | a :: rest =>
    if a.oauthClientName = "Training Peaks Virtual" ∧ (a.startSeconds - t).natAbs ≤ 15
    then some a.name
    else findIcuMatch t rest

/-- Embedding of get_name_from_intervals (src/garmin.py lines 149-168),
called with the possibly absent timestamp of get_date_from_fit: with either
credential absent the function returns the empty string at once; with both
credentials present it calls strftime on the timestamp, which raises
AttributeError when the timestamp is None, then returns the matched name or
the empty string. -/
def get_name_from_intervals (env : IntervalsEnv) (dt : Option Int) :
    Except String String :=
  match env.athleteId, env.apiKey with
  | none, _ => Except.ok ""
  | some _, none => Except.ok ""
  | some _, some _ =>
    match dt with
    | none => Except.error "AttributeError: NoneType object has no strftime"
    | some t =>
      match findIcuMatch t env.activities with
      | some n => Except.ok n
      | none => Except.ok ""

/-- Whether one call of get_name_from_intervals reaches its remote request
(src/garmin.py line 159): the credential check at lines 150-153 returns the
empty string before any network activity when either credential is absent,
and with both present the strftime call at line 158 raises before the
request when the timestamp is absent; otherwise the request is made. -/
def intervalsRemoteCalled (env : IntervalsEnv) (dt : Option Int) : Bool :=
  env.athleteId.isSome && env.apiKey.isSome && dt.isSome

/-- Boolean lexicographic comparison of char lists by character code. -/
def charListLe : List Char → List Char → Bool
  | [], _ => true
  | _ :: _, [] => false
  | a :: s, b :: t =>
    if a.val < b.val then true
    else if b.val < a.val then false
    else charListLe s t

/-- Insertion step of the lexicographic sort used by the spec-side candidate
definition. -/
def insertLex (x : String) : List String → List String
  | [] => [x]
  | y :: ys => if charListLe x.data y.data then x :: y :: ys else y :: insertLex x ys

/-- Lexicographic insertion sort on file names. -/
def sortLex : List String → List String
  | [] => []
  | x :: xs => insertLex x (sortLex xs)

/-- Modelled from the spec words of 4.3: the candidate sequence consists of
the fit-suffixed names of the directory, excluding names with the reserved
modified suffix and names in the ledger, returned in lexicographic order by
filename. -/
def candidatesSpec (listing ledger : List String) : List String :=
  sortLex (((listing.filter (fun n => isFitName n)).filter
      (fun n => ! strEndsWith n "_modified.fit")).filter
    (fun n => ! ledger.contains n))

/-- C1: every FileIdMessage whose manufacturer equals the DEVELOPMENT
sentinel has, at the same position of the output of edit_fit, its product
overwritten with EDGE_830 and its manufacturer overwritten with GARMIN,
the remaining fields kept; a FileIdMessage with any other manufacturer is
reproduced with all fields identical to the input. -/
theorem edit_fit_fileId_mutation (records : List Message) (p : FPath)
    (out : Option FPath) (dryrun : Bool) (name : String) (i : Nat) (m : FileIdMsg)
    (h : records.get? i = some (Message.fileId m)) :
    (edit_fit records p out dryrun name).messages.get? i =
      some (Message.fileId
        (if m.manufacturer = DEVELOPMENT then
          { manufacturer := GARMIN, product := EDGE_830,
            garminProduct := m.garminProduct, timeCreated := m.timeCreated }
        else m)) := by
  have hlen : i < records.length := by
    by_contra hge
    rw [List.get?_eq_none.mpr (Nat.le_of_not_lt hge)] at h
    exact Option.noConfusion h
  rw [edit_fit_messages_eq]
  rw [List.get?_append (by simpa using hlen)]
  rw [List.get?_map, h]
  by_cases hm : m.manufacturer = DEVELOPMENT <;>
    simp [editMessage, editFileId, hm]

/-- C1 witness: evaluation at a two-record file holding one DEVELOPMENT
identity record and one GARMIN identity record. -/
theorem edit_fit_fileId_mutation_witness :
    (edit_fit [Message.fileId ⟨255, 7, 8, 1000⟩, Message.fileId ⟨1, 7, 8, 1000⟩]
        ⟨"d", "a.fit"⟩ none false "").messages.get? 0 =
      some (Message.fileId ⟨1, 3122, 8, 1000⟩) ∧
    (edit_fit [Message.fileId ⟨255, 7, 8, 1000⟩, Message.fileId ⟨1, 7, 8, 1000⟩]
        ⟨"d", "a.fit"⟩ none false "").messages.get? 1 =
      some (Message.fileId ⟨1, 7, 8, 1000⟩) := by
  constructor
  · have := edit_fit_fileId_mutation
      [Message.fileId ⟨255, 7, 8, 1000⟩, Message.fileId ⟨1, 7, 8, 1000⟩]
      ⟨"d", "a.fit"⟩ none false "" 0 ⟨255, 7, 8, 1000⟩ rfl
    simpa using this
  · have := edit_fit_fileId_mutation
      [Message.fileId ⟨255, 7, 8, 1000⟩, Message.fileId ⟨1, 7, 8, 1000⟩]
      ⟨"d", "a.fit"⟩ none false "" 1 ⟨1, 7, 8, 1000⟩ rfl
    simpa using this

/-- C2: every DeviceInfoMessage whose manufacturer is the DEVELOPMENT
sentinel, zero, or WAHOO_FITNESS has, at the same position of the output of
edit_fit, garminProduct and product overwritten with EDGE_830 and
manufacturer overwritten with GARMIN; a DeviceInfoMessage with any other
manufacturer is reproduced identical to the input. -/
theorem edit_fit_deviceInfo_mutation (records : List Message) (p : FPath)
    (out : Option FPath) (dryrun : Bool) (name : String) (i : Nat) (m : DeviceInfoMsg)
    (h : records.get? i = some (Message.deviceInfo m)) :
    (edit_fit records p out dryrun name).messages.get? i =
      some (Message.deviceInfo
        (if m.manufacturer = DEVELOPMENT ∨ m.manufacturer = 0 ∨
            m.manufacturer = WAHOO_FITNESS then
          { manufacturer := GARMIN, product := EDGE_830, garminProduct := EDGE_830 }
        else m)) := by
  have hlen : i < records.length := by
    by_contra hge
    rw [List.get?_eq_none.mpr (Nat.le_of_not_lt hge)] at h
    exact Option.noConfusion h
  rw [edit_fit_messages_eq]
  rw [List.get?_append (by simpa using hlen)]
  rw [List.get?_map, h]
  by_cases hm : m.manufacturer = DEVELOPMENT ∨ m.manufacturer = 0 ∨
      m.manufacturer = WAHOO_FITNESS <;>
    simp [editMessage, editDeviceInfo, hm]

/-- C2 witness: evaluation at a file holding device info records with
manufacturer DEVELOPMENT, zero, WAHOO_FITNESS and an unrelated value. -/
theorem edit_fit_deviceInfo_mutation_witness :
    (edit_fit [Message.deviceInfo ⟨255, 5, 6⟩, Message.deviceInfo ⟨0, 5, 6⟩,
        Message.deviceInfo ⟨32, 5, 6⟩, Message.deviceInfo ⟨10, 5, 6⟩]
        ⟨"d", "a.fit"⟩ none false "").messages.get? 0 =
      some (Message.deviceInfo ⟨1, 3122, 3122⟩) ∧
    (edit_fit [Message.deviceInfo ⟨255, 5, 6⟩, Message.deviceInfo ⟨0, 5, 6⟩,
        Message.deviceInfo ⟨32, 5, 6⟩, Message.deviceInfo ⟨10, 5, 6⟩]
        ⟨"d", "a.fit"⟩ none false "").messages.get? 3 =
      some (Message.deviceInfo ⟨10, 5, 6⟩) := by
  constructor
  · have := edit_fit_deviceInfo_mutation
      [Message.deviceInfo ⟨255, 5, 6⟩, Message.deviceInfo ⟨0, 5, 6⟩,
        Message.deviceInfo ⟨32, 5, 6⟩, Message.deviceInfo ⟨10, 5, 6⟩]
      ⟨"d", "a.fit"⟩ none false "" 0 ⟨255, 5, 6⟩ rfl
    simpa using this
  · have := edit_fit_deviceInfo_mutation
      [Message.deviceInfo ⟨255, 5, 6⟩, Message.deviceInfo ⟨0, 5, 6⟩,
        Message.deviceInfo ⟨32, 5, 6⟩, Message.deviceInfo ⟨10, 5, 6⟩]
      ⟨"d", "a.fit"⟩ none false "" 3 ⟨10, 5, 6⟩ rfl
    simpa using this

/-- C3: edit_fit copies every input record, mutated or not, into the output
in the original relative order; with an empty workout name the output record
count equals the input count, and with a non-empty name exactly one workout
record with sport CYCLING is appended after all copied records. -/
theorem edit_fit_order_and_count (records : List Message) (p : FPath)
    (out : Option FPath) (dryrun : Bool) (name : String) :
    (edit_fit records p out dryrun name).messages =
      records.map editMessage ++
        (if name = "" then [] else [Message.workout ⟨name, CYCLING⟩]) ∧
    (edit_fit records p out dryrun name).messages.length =
      records.length + (if name = "" then 0 else 1) := by
  refine ⟨edit_fit_messages_eq records p out dryrun name, ?_⟩
  rw [edit_fit_messages_eq]
  by_cases h : name = "" <;> simp [h]

theorem runLoop_fst_of_none (env : String → FileOutcome) (preinit dryrun : Bool)
    (fs acc : List String)
    (h : (runLoop env preinit dryrun fs acc).2 = none) :
    (runLoop env preinit dryrun fs acc).1 = acc ++ fs := by
  induction fs generalizing acc with
  | nil => simp [runLoop]
  | cons f rest ih =>
    by_cases hp : preinit = true
    · subst hp
      simp only [runLoop, if_true] at h ⊢
      rw [ih _ h]; simp
    · rw [Bool.not_eq_true] at hp
      subst hp
      by_cases ha : abortsAt env dryrun f = true
      · simp [runLoop, ha] at h
      · simp only [runLoop, ha, Bool.false_eq_true, if_false] at h ⊢
        rw [ih _ h]; simp

theorem runLoop_of_no_abort (env : String → FileOutcome) (dryrun : Bool)
    (fs acc : List String) (h : ∀ f ∈ fs, abortsAt env dryrun f = false) :
    runLoop env false dryrun fs acc = (acc ++ fs, none) := by
  induction fs generalizing acc with
  | nil => simp [runLoop]
  | cons f rest ih =>
    have hf := h f (by simp)
    simp only [runLoop, Bool.false_eq_true, if_false, hf]
    rw [ih _ (fun g hg => h g (by simp [hg]))]
    simp

theorem lookupRuns_all (env : String → FileOutcome) (fs : List String)
    (h : ∀ f ∈ fs, env f ≠ FileOutcome.malformed) :
    lookupRuns env true fs = fs := by
  induction fs with
  | nil => rfl
  | cons f rest ih =>
    have hf := h f (by simp)
    have ha : abortsAt env true f = false := by
      unfold abortsAt
      cases henv : env f <;> simp_all
    simp [lookupRuns, hf, ha, ih (fun g hg => h g (by simp [hg]))]

theorem candidates_after_run (listing uploaded : List String) :
    candidates listing (uploaded ++ candidates listing uploaded) = [] := by
  have key : ∀ a, a ∈ ((listing.filter (fun n => isFitName n)).filter
      (fun n => ! strEndsWith n "_modified.fit")) →
      a ∈ uploaded ++ candidates listing uploaded := by
    intro a ha
    rw [List.mem_append]
    by_cases hu : a ∈ uploaded
    · exact Or.inl hu
    · refine Or.inr ?_
      unfold candidates
      rw [List.mem_filter]
      refine ⟨ha, ?_⟩
      show (! uploaded.contains a) = true
      cases hb : uploaded.contains a with
      | false => rfl
      | true => exact absurd (List.elem_iff.mp hb) hu
  show ((listing.filter (fun n => isFitName n)).filter
      (fun n => ! strEndsWith n "_modified.fit")).filter
      (fun n => ! (uploaded ++ candidates listing uploaded).contains n) = []
  apply List.filter_eq_nil_iff.mpr
  intro a ha h
  simp only [Bool.not_eq_true'] at h
  have hc : (uploaded ++ candidates listing uploaded).contains a = true :=
    List.elem_iff.mpr (key a ha)
  rw [hc] at h
  exact Bool.noConfusion h

/-- C4: a completed non-dryrun upload_all run persists every processed
filename, so a second run over the unchanged directory listing, reading the
ledger the first run left behind, finds an empty candidate list and
processes zero files. -/
theorem upload_all_idempotent (env env2 : String → FileOutcome) (listing : List String)
    (ledgerFile : Option (List String)) (preinit preinit2 dryrun2 : Bool)
    (h : (upload_all env listing ledgerFile preinit false).aborted = none) :
    (upload_all env2 listing
      (some ((upload_all env listing ledgerFile preinit false).finalLedger.getD
        (ledgerFile.getD []))) preinit2 dryrun2).filesToProcess = [] := by
  by_cases hc : candidates listing (ledgerFile.getD []) = []
  · have h1 : (upload_all env listing ledgerFile preinit false).finalLedger = none := by
      simp [upload_all, hc]
    rw [h1]
    simp [upload_all, hc]
  · have haborted : (upload_all env listing ledgerFile preinit false).aborted =
        (runLoop env preinit false (candidates listing (ledgerFile.getD []))
          (ledgerFile.getD [])).2 := by
      simp [upload_all, hc]
    have h2 : (runLoop env preinit false (candidates listing (ledgerFile.getD []))
        (ledgerFile.getD [])).2 = none := by rw [← haborted]; exact h
    have h3 := runLoop_fst_of_none env preinit false
      (candidates listing (ledgerFile.getD [])) (ledgerFile.getD []) h2
    have hfin : (upload_all env listing ledgerFile preinit false).finalLedger =
        some (ledgerFile.getD [] ++ candidates listing (ledgerFile.getD [])) := by
      simp [upload_all, hc, h2, h3]
    rw [hfin]
    simp [upload_all, candidates_after_run]

/-- C4 witness: a singleton directory, absent ledger, successful first run. -/
theorem upload_all_idempotent_witness :
    (upload_all (fun _ => FileOutcome.ok) ["ride1.fit"]
      (some ((upload_all (fun _ => FileOutcome.ok) ["ride1.fit"] none false
          false).finalLedger.getD ((none : Option (List String)).getD [])))
      false false).filesToProcess = [] :=
  upload_all_idempotent (fun _ => FileOutcome.ok) (fun _ => FileOutcome.ok)
    ["ride1.fit"] none false false false (by decide)

/-- C5 counterexample: for the directory enumeration that yields the two fit
files in the order b then a, the computed candidate list keeps that order
while the spec-side definition demands lexicographic order, and the two
disagree. -/
theorem candidates_order_cex :
    candidates ["b.fit", "a.fit"] [] = ["b.fit", "a.fit"] ∧
    candidatesSpec ["b.fit", "a.fit"] [] = ["a.fit", "b.fit"] ∧
    candidates ["b.fit", "a.fit"] [] ≠ candidatesSpec ["b.fit", "a.fit"] [] := by
  decide

/-- C5 amended: the candidate list contains exactly the filenames of the
directory whose lower-cased name ends in the fit suffix, that do not end
with the reserved modified suffix, and that are not members of the ledger;
its order is the directory enumeration order, of which it is a
subsequence, and no sorting is applied. -/
theorem candidates_membership_and_order (listing ledger : List String) (n : String) :
    (n ∈ candidates listing ledger ↔
      n ∈ listing ∧ isFitName n = true ∧ strEndsWith n "_modified.fit" = false ∧
        n ∉ ledger) ∧
    List.Sublist (candidates listing ledger) listing := by
  constructor
  · unfold candidates
    simp only [List.mem_filter, Bool.not_eq_true']
    constructor
    · rintro ⟨⟨⟨hl, hfit⟩, hmod⟩, hled⟩
      refine ⟨hl, hfit, hmod, fun hm => ?_⟩
      have hc : ledger.contains n = true := List.elem_iff.mpr hm
      rw [hled] at hc
      exact Bool.noConfusion hc
    · rintro ⟨hl, hfit, hmod, hled⟩
      refine ⟨⟨⟨hl, hfit⟩, hmod⟩, ?_⟩
      cases hb : ledger.contains n with
      | false => rfl
      | true => exact absurd (List.elem_iff.mp hb) hled
  · exact ((List.filter_sublist _).trans (List.filter_sublist _)).trans
      (List.filter_sublist _)

/-- C6: evaluation of the embedded upload_all at a batch whose first
candidate fails to decode.  The uncaught MalformedFileError ends the run at
that file: the second candidate is never reached and the ledger is never
flushed, because the except clause at src/garmin.py lines 327-328 is
commented out.  This contradicts the skip-and-continue policy the claim
states. -/
theorem malformed_aborts_batch :
    (upload_all (fun f => if f = "bad.fit" then FileOutcome.malformed else FileOutcome.ok)
      ["bad.fit", "good.fit"] (some []) false false).aborted = some "bad.fit" ∧
    (upload_all (fun f => if f = "bad.fit" then FileOutcome.malformed else FileOutcome.ok)
      ["bad.fit", "good.fit"] (some []) false false).finalLedger = none := by
  decide

/-- C7 counterexample: a dryrun over a directory with no ledger file still
creates the blank ledger file, because the creation at src/garmin.py lines
291-295 happens before any dryrun check. -/
theorem dryrun_creates_blank_ledger :
    (upload_all (fun _ => FileOutcome.ok) [] none false true).blankCreated = true := by
  decide

/-- C7 amended: in dryrun mode the pipeline never writes the updated ledger
contents, edit_fit writes no output file while still returning the would-be
output path, and upload makes no remote upload or rename call; however,
dryrun is not free of persistent writes or remote calls: when the ledger
file is absent an empty ledger file is still created, the naming-service
lookup still runs for every decodable candidate and performs its remote
request whenever both credentials and a timestamp are present, and the
authentication block still runs, performing a remote login and writing the
token store whenever no valid cached session exists. -/
theorem dryrun_no_persistent_writes (env : String → FileOutcome)
    (listing : List String) (ledgerFile : Option (List String)) (preinit : Bool)
    (records : List Message) (p : FPath) (o : FPath) (name : String)
    (remote : RemoteResult) (haveDt sessionValid : Bool)
    (aid key : String) (acts : List IcuActivity) (t : Int)
    (hok : ∀ f ∈ candidates listing (ledgerFile.getD []),
      env f ≠ FileOutcome.malformed) :
    (upload_all env listing ledgerFile preinit true).finalLedger = none ∧
    (upload_all env listing none preinit true).blankCreated = true ∧
    (edit_fit records p none true name).written = none ∧
    (edit_fit records p (some o) true name).written = none ∧
    (edit_fit records p none true name).outPath =
      ⟨p.dir, pyStem p.base ++ "_modified.fit"⟩ ∧
    (edit_fit records p (some o) true name).outPath = o ∧
    (upload sessionValid true remote haveDt name).uploadCalled = false ∧
    (upload sessionValid true remote haveDt name).renameAttempted = false ∧
    (upload_all env listing ledgerFile false true).nameLookups =
      (upload_all env listing ledgerFile false true).filesToProcess ∧
    intervalsRemoteCalled ⟨some aid, some key, acts⟩ (some t) = true ∧
    (upload false true remote haveDt name).loginCalled = true ∧
    (upload false true remote haveDt name).tokenSaved = true := by
  refine ⟨?_, ?_, rfl, rfl, rfl, rfl, rfl, rfl, ?_, rfl, rfl, rfl⟩
  · simp only [upload_all]
    split
    · rfl
    · simp
  · simp only [upload_all]
    split <;> rfl
  · have hlook : lookupRuns env true (candidates listing (ledgerFile.getD [])) =
        candidates listing (ledgerFile.getD []) :=
      lookupRuns_all env _ hok
    by_cases hc : candidates listing (ledgerFile.getD []) = []
    · simp [upload_all, hc]
    · simp [upload_all, hc, hlook]

/-- C7 amended witness: a dryrun over one decodable candidate with no
ledger file, both naming-service credentials set, and no cached session. -/
theorem dryrun_no_persistent_writes_witness :
    (upload_all (fun _ => FileOutcome.ok) ["ride1.fit"] none false true).finalLedger =
      none ∧
    (upload_all (fun _ => FileOutcome.ok) ["ride1.fit"] none false true).blankCreated =
      true ∧
    (edit_fit [] ⟨"d", "ride1.fit"⟩ none true "w").written = none ∧
    (edit_fit [] ⟨"d", "ride1.fit"⟩ (some ⟨"d", "out.fit"⟩) true "w").written = none ∧
    (edit_fit [] ⟨"d", "ride1.fit"⟩ none true "w").outPath =
      ⟨"d", pyStem "ride1.fit" ++ "_modified.fit"⟩ ∧
    (edit_fit [] ⟨"d", "ride1.fit"⟩ (some ⟨"d", "out.fit"⟩) true "w").outPath =
      ⟨"d", "out.fit"⟩ ∧
    (upload true true RemoteResult.accepted true "w").uploadCalled = false ∧
    (upload true true RemoteResult.accepted true "w").renameAttempted = false ∧
    (upload_all (fun _ => FileOutcome.ok) ["ride1.fit"] none false true).nameLookups =
      (upload_all (fun _ => FileOutcome.ok) ["ride1.fit"] none false
        true).filesToProcess ∧
    intervalsRemoteCalled ⟨some "aid", some "key", []⟩ (some 0) = true ∧
    (upload false true RemoteResult.accepted true "w").loginCalled = true ∧
    (upload false true RemoteResult.accepted true "w").tokenSaved = true :=
  dryrun_no_persistent_writes (fun _ => FileOutcome.ok) ["ride1.fit"] none false
    [] ⟨"d", "ride1.fit"⟩ ⟨"d", "out.fit"⟩ "w" RemoteResult.accepted true true
    "aid" "key" [] 0 (by decide)

/-- C8: when every candidate of the batch either succeeds or receives a 409
conflict from the remote upload, the conflict raises no exception out of
upload, the batch completes without aborting, and every candidate, conflict
files included, ends up recorded in the flushed ledger. -/
theorem conflict_treated_as_success (env : String → FileOutcome)
    (listing uploaded : List String) (haveDt sessionValid : Bool) (nm : String)
    (h : ∀ f ∈ candidates listing uploaded,
      env f = FileOutcome.ok ∨ env f = FileOutcome.conflict) :
    (upload sessionValid false RemoteResult.conflict haveDt nm).raised = false ∧
    (upload_all env listing (some uploaded) false false).aborted = none ∧
    ∀ f ∈ candidates listing uploaded,
      f ∈ (upload_all env listing (some uploaded) false false).finalLedger.getD [] := by
  have hno : ∀ f ∈ candidates listing uploaded, abortsAt env false f = false := by
    intro f hf
    rcases h f hf with h1 | h1 <;> simp [abortsAt, h1]
  by_cases hc : candidates listing uploaded = []
  · refine ⟨rfl, ?_, ?_⟩
    · simp [upload_all, hc]
    · rw [hc]; intro f hf; exact absurd hf (List.not_mem_nil f)
  · have hrun := runLoop_of_no_abort env false (candidates listing uploaded) uploaded hno
    refine ⟨rfl, ?_, ?_⟩
    · simp [upload_all, hc, hrun]
    · intro f hf
      have hfin : (upload_all env listing (some uploaded) false false).finalLedger =
          some (uploaded ++ candidates listing uploaded) := by
        simp [upload_all, hc, hrun]
      rw [hfin]
      simp only [Option.getD_some, List.mem_append]
      exact Or.inr hf

/-- C8 witness: a two-file batch where the first upload reports a conflict
and the second succeeds. -/
theorem conflict_treated_as_success_witness :
    (upload true false RemoteResult.conflict true "w").raised = false ∧
    (upload_all (fun f => if f = "ride2.fit" then FileOutcome.conflict else FileOutcome.ok)
      ["ride2.fit", "ride3.fit"] (some []) false false).aborted = none ∧
    ∀ f ∈ candidates ["ride2.fit", "ride3.fit"] [],
      f ∈ (upload_all
        (fun f => if f = "ride2.fit" then FileOutcome.conflict else FileOutcome.ok)
        ["ride2.fit", "ride3.fit"] (some []) false false).finalLedger.getD [] :=
  conflict_treated_as_success
    (fun f => if f = "ride2.fit" then FileOutcome.conflict else FileOutcome.ok)
    ["ride2.fit", "ride3.fit"] [] true true "w" (by decide)

/-- C9 counterexample: with both naming-service credentials present and an
absent timestamp, exactly the situation upload_all produces when the file
has no identity record, the lookup raises instead of returning the empty
string. -/
theorem intervals_none_timestamp_raises :
    get_name_from_intervals ⟨some "athlete", some "key", []⟩ none =
      Except.error "AttributeError: NoneType object has no strftime" := rfl

/-- C9 amended: the lookup returns the empty string without error whenever
either credential is absent, for every timestamp including the absent one,
and whenever both credentials are present, a timestamp exists and no
activity matches; but with both credentials present and no timestamp the
lookup raises an error. -/
theorem intervals_best_effort (env : IntervalsEnv) (dt : Option Int) (t : Int) :
    (env.athleteId = none ∨ env.apiKey = none →
      get_name_from_intervals env dt = Except.ok "") ∧
    (env.athleteId ≠ none → env.apiKey ≠ none →
      findIcuMatch t env.activities = none →
      get_name_from_intervals env (some t) = Except.ok "") ∧
    (env.athleteId ≠ none → env.apiKey ≠ none →
      get_name_from_intervals env none =
        Except.error "AttributeError: NoneType object has no strftime") := by
  obtain ⟨aid, key, acts⟩ := env
  refine ⟨?_, ?_, ?_⟩
  · rintro (h | h) <;> simp only at h <;> subst h <;>
      cases dt <;> first
        | rfl
        | (cases aid <;> rfl)
  · intro h1 h2 hm
    simp only at h1 h2 hm
    cases aid with
    | none => exact absurd rfl h1
    | some a =>
      cases key with
      | none => exact absurd rfl h2
      | some k => simp [get_name_from_intervals, hm]
  · intro h1 h2
    simp only at h1 h2
    cases aid with
    | none => exact absurd rfl h1
    | some a =>
      cases key with
      | none => exact absurd rfl h2
      | some k => rfl

/-- C9 witness: evaluation without credentials, with credentials and no
match, and with credentials and an absent timestamp. -/
theorem intervals_best_effort_witness :
    get_name_from_intervals ⟨none, some "k", []⟩ (some 0) = Except.ok "" ∧
    get_name_from_intervals ⟨some "a", some "k", []⟩ (some 0) = Except.ok "" ∧
    get_name_from_intervals ⟨some "a", some "k", []⟩ none =
      Except.error "AttributeError: NoneType object has no strftime" :=
  ⟨(intervals_best_effort ⟨none, some "k", []⟩ (some 0) 0).1 (Or.inl rfl),
   (intervals_best_effort ⟨some "a", some "k", []⟩ (some 0) 0).2.1
     (by simp) (by simp) rfl,
   (intervals_best_effort ⟨some "a", some "k", []⟩ none 0).2.2
     (by simp) (by simp)⟩

theorem strEndsWith_append (x : String) :
    strEndsWith (x ++ "_modified.fit") "_modified.fit" = true := by
  simp [strEndsWith, String.data_append]

theorem modified_not_candidate (s : String) (listing ledger : List String)
    (h : strEndsWith s "_modified.fit" = true) : s ∉ candidates listing ledger := by
  unfold candidates
  intro hmem
  rw [List.mem_filter] at hmem
  have h1 := hmem.1
  rw [List.mem_filter] at h1
  have h2 := h1.2
  rw [h] at h2
  simp at h2

/-- C10: with no explicit output path, edit_fit returns the path made of the
input directory and the input stem with the reserved modified suffix
appended; that name ends in the reserved suffix and is therefore never a
member of any later candidate computation, for every directory listing and
ledger. -/
theorem default_output_excluded (records : List Message) (p : FPath) (dryrun : Bool)
    (name : String) (listing ledger : List String) :
    (edit_fit records p none dryrun name).outPath =
      ⟨p.dir, pyStem p.base ++ "_modified.fit"⟩ ∧
    strEndsWith (edit_fit records p none dryrun name).outPath.base "_modified.fit" = true ∧
    (edit_fit records p none dryrun name).outPath.base ∉ candidates listing ledger := by
  refine ⟨rfl, strEndsWith_append _, ?_⟩
  exact modified_not_candidate _ _ _ (strEndsWith_append _)

end Garmin
